import Mathlib

/-!
Shallow embedding of `src/LibroFmClient.ts` (libro-client).

The client orchestrates: authenticated session state (`Config`), paginated
catalog retrieval (`getLibrary`), and per-item download orchestration
(`downloadBook`).  External collaborators (`APIHandler`, `DownloadClient`,
`InputHandler`, `State`) live outside `src/`; they are modelled as an
oracle environment `Env` of fallible calls, and the client's observable
behaviour (result, state change, sequence of collaborator calls) is made
explicit.

JavaScript truthiness matters in several guards (`!this.config.authToken`,
`!book.authors`, `.filter(Boolean)`): an absent value, and the empty
string, are falsy; an array (even empty) is truthy.  Optional string-ish
values are encoded as `Option String`, and `book.authors` as
`Option (String ⊕ List String)` to cover `string | string[]`.
-/

deriving instance DecidableEq for Except

namespace LibroFm

/-- A remote audiobook entry, as used by `LibroFmClient`.
`authors` is `string | string[]` in TS and may be absent; `series` is kept
when it is a string (`typeof book.series === "string"`), anything else
behaves as "not a string"; `series_num` and `title` are string-ish and may
be absent. -/
structure Audiobook where
  isbn : String
  title : Option String
  authors : Option (String ⊕ List String)
  series : Option String
  series_num : Option String
deriving DecidableEq

/-- One page returned by `APIHandler.fetchLibrary`. -/
structure LibraryPage where
  audiobooks : List Audiobook
  total_pages : Nat
deriving DecidableEq

/-- One part of a download plan (`metadata.parts`), carrying a URL. -/
structure Part where
  url : String
deriving DecidableEq

/-- Resolved transfer plan for one book (`DownloadMetadata` in TS). -/
structure DownloadMetadata where
  isbn : String
  parts : List Part
deriving DecidableEq

/-- A Ledger entry (`this.state.addBook({book, path, meta, ...})`). -/
structure DownloadRecord where
  book : Audiobook
  path : String
  meta : DownloadMetadata
  zippedPaths : Option (List String)
deriving DecidableEq

/-- The mutable session/config store (`Config` in TS): all fields optional. -/
structure Config where
  username : Option String
  password : Option String
  authToken : Option String
  downloadDir : Option String
deriving DecidableEq

/-- JS truthiness of the auth token: `!this.config.authToken` rejects an
absent token and the empty string. `liveToken` returns the token exactly
when the guard passes. -/
def Config.liveToken (c : Config) : Option String :=
  match c.authToken with
  | none => none
  | some t => if t = "" then none else some t

/-- `AudiobookMap`: a JS object keyed by ISBN.  Encoded as an association
list in insertion order; assigning to an existing key overwrites in place,
assigning a fresh key appends. -/
abbrev AudiobookMap := List (String × Audiobook)

/-- `audiobooks[book.isbn] = book` for one book: JS object assignment —
overwrite in place when the key exists (keys are unique by construction),
append otherwise. -/
def mapInsert : AudiobookMap → Audiobook → AudiobookMap
  | [], b => [(b.isbn, b)]
  | p :: rest, b =>
      if p.1 = b.isbn then (b.isbn, b) :: rest else p :: mapInsert rest b

/-- The `for (const book of data.audiobooks)` merge loop of one page. -/
def insertAll (m : AudiobookMap) (books : List Audiobook) : AudiobookMap :=
  books.foldl mapInsert m

/-- Lookup in an `AudiobookMap` by key (JS property access). -/
def mapLookup : AudiobookMap → String → Option Audiobook
  | [], _ => none
  | p :: rest, k => if p.1 = k then some p.2 else mapLookup rest k

/-- The Ledger (`State` in TS): records keyed by ISBN. -/
abbrev Ledger := List (String × DownloadRecord)

/-- `state.hasBook(isbn)`. -/
def hasBook : Ledger → String → Bool
  | [], _ => false
  | p :: rest, isbn => if p.1 = isbn then true else hasBook rest isbn

/-- Modelled from the spec: `State.addBook` (the `putRecord` upsert of
§4.2, `State.ts` is not under `src/`): replaces any prior record for the
same identifier, atomically. -/
def ledgerPut : Ledger → DownloadRecord → Ledger
  | [], r => [(r.book.isbn, r)]
  | p :: rest, r =>
      if p.1 = r.book.isbn then (r.book.isbn, r) :: rest else p :: ledgerPut rest r

/-- Lookup in the Ledger by identifier (`getRecord`). -/
def ledgerGet : Ledger → String → Option DownloadRecord
  | [], _ => none
  | p :: rest, k => if p.1 = k then some p.2 else ledgerGet rest k

/-- The client's whole mutable state: `this.config` and `this.state`. -/
structure ClientState where
  config : Config
  state : Ledger
deriving DecidableEq

/-- Errors thrown across the boundaries the claims talk about.
`notLoggedIn`, `noAuthorsFound` and `downloadFailed` are the client's own
`new Error(...)` values; `metadataResolutionFailed` is — modelled from the
spec — the error the Gateway's download-metadata resolution fails with
(`MetadataResolutionFailed` wrapping the underlying cause; `APIHandler.ts`
is not under `src/`); `transport` stands for any other collaborator
failure. -/
inductive Err where
  | notLoggedIn
  | noAuthorsFound
  | downloadFailed
  | metadataResolutionFailed (cause : String)
  | transport (msg : String)
deriving DecidableEq

/-- Observable collaborator calls and log events, in order of occurrence. -/
inductive Event where
  | fetchLibraryCall (page : Nat)
  | fetchMetadataCall (isbn : String)
  | requestOverwriteCall (isbn : String)
  | downloadFilesCall (filename : String)
  | saveMetadataCall (path : String)
  | addBookCall (isbn : String)
  | errorLogged
deriving DecidableEq

/-- Oracle behaviour of the external collaborators for one run.
`addBookOk` — modelled from the spec: whether the ledger write succeeds
(`putRecord` is atomic/durable, §4.2). -/
structure Env where
  fetchLibrary : String → Nat → Except Err LibraryPage
  fetchDownloadMetadata : String → String → Except Err DownloadMetadata
  requestOverwrite : Audiobook → Bool
  downloadFiles : String → List String → String → Bool → Option String →
      Except Err (String × Option (List String))
  saveMetadata : Audiobook → DownloadMetadata → String → Except Err Unit
  addBookOk : Bool

/-- `[x, y, ...].filter(Boolean)` over string-ish values: keeps present,
non-empty strings. -/
def jsFilterBoolean (xs : List (Option String)) : List String :=
  List.filter (fun s => s ≠ "") (xs.filterMap id)

/-- The author string of the path derivation, `none` when the guard
`if (!book.authors) throw new Error("No authors found")` fires: absent
authors and the empty string are falsy; an array — even empty — is truthy
and is joined with ", ". -/
def authorsString : Option (String ⊕ List String) → Option String
  | none => none
  | some (Sum.inl s) => if s = "" then none else some s
  | some (Sum.inr l) => some (String.intercalate ", " l)

/-- `[book.series_num, book.title].filter(Boolean).join(' - ')`. -/
def titlePart (book : Audiobook) : String :=
  String.intercalate " - " (jsFilterBoolean [book.series_num, book.title])

/-- `[authors, series, title].filter(Boolean).join('/')`, given the
already-computed author string. -/
def filenameOf (authors : String) (book : Audiobook) : String :=
  String.intercalate "/" (jsFilterBoolean [some authors, book.series, some (titlePart book)])

/-- The relative path `downloadBook` derives, `none` when the
missing-authors guard throws. -/
def deriveFilename (book : Audiobook) : Option String :=
  match authorsString book.authors with
  | none => none
  | some a => some (filenameOf a book)

/-- `this.config.change({authToken: undefined})`: logging out. -/
def clearToken (c : Config) : Config :=
  { c with authToken := none }

/-- The `while (true)` pagination loop of `getLibrary` (lines 56–78).
A page failure is caught: it logs, clears the auth token and breaks; a
page success merges the page's books and either breaks (once
`page >= data.total_pages`) or continues with `page + 1`.  The JS loop has
no bound of its own, so the embedding carries fuel; every theorem supplies
enough fuel for its scenario. -/
def getLibraryLoop (env : Env) (tok : String) :
    Nat → Nat → AudiobookMap → Config → AudiobookMap × Config × List Event
  | 0, _, acc, cfg => (acc, cfg, [])
  | fuel + 1, page, acc, cfg =>
    match env.fetchLibrary tok page with
    | Except.error _ =>
        (acc, clearToken cfg, [Event.fetchLibraryCall page, Event.errorLogged])
    | Except.ok data =>
        let acc2 := insertAll acc data.audiobooks
        if data.total_pages ≤ page then
          (acc2, cfg, [Event.fetchLibraryCall page])
        else
          match getLibraryLoop env tok fuel (page + 1) acc2 cfg with
          | (m, c, evs) => (m, c, Event.fetchLibraryCall page :: evs)

/-- `LibroFmClient.getLibrary` (lines 52–81): guard on the auth token,
then paginate from page 1 into an empty map.  Page failures are swallowed
(the result is `ok` with whatever accumulated); only the missing-token
guard throws. -/
def getLibrary (env : Env) (fuel : Nat) (cs : ClientState) :
    Except Err AudiobookMap × ClientState × List Event :=
  match cs.config.liveToken with
  | none => (Except.error Err.notLoggedIn, cs, [])
  | some tok =>
      match getLibraryLoop env tok fuel 1 [] cs.config with
      | (m, cfg, evs) => (Except.ok m, ⟨cfg, cs.state⟩, evs)

/-- `LibroFmClient.getDownloadMetadata` (lines 162–169): guard on the
token, then one Gateway call whose failure propagates uncaught. -/
def getDownloadMetadata (env : Env) (cfg : Config) (isbn : String) :
    Except Err DownloadMetadata × List Event :=
  match cfg.liveToken with
  | none => (Except.error Err.notLoggedIn, [])
  | some tok =>
      match env.fetchDownloadMetadata tok isbn with
      | Except.error e => (Except.error e, [Event.fetchMetadataCall isbn])
      | Except.ok d => (Except.ok d, [Event.fetchMetadataCall isbn])

/-- The `try` body of `downloadBook` (lines 112–145): authors guard, path
derivation, transfer, sidecar metadata save, ledger write.  Returns the
raw (uncaught) outcome together with the resulting ledger and the calls
made. -/
def downloadBody (env : Env) (cs : ClientState) (book : Audiobook)
    (metadata : DownloadMetadata) (urls : List String) (authToken : String)
    (keepZip : Bool) : Except Err String × Ledger × List Event :=
  match authorsString book.authors with
  | none => (Except.error Err.noAuthorsFound, cs.state, [])
  | some authors =>
      let filename := filenameOf authors book
      match env.downloadFiles filename urls authToken keepZip cs.config.downloadDir with
      | Except.error e => (Except.error e, cs.state, [Event.downloadFilesCall filename])
      | Except.ok (path, zipped) =>
          match env.saveMetadata book metadata path with
          | Except.error e =>
              (Except.error e, cs.state,
               [Event.downloadFilesCall filename, Event.saveMetadataCall path])
          | Except.ok _ =>
              if env.addBookOk then
                (Except.ok filename,
                 ledgerPut cs.state ⟨book, path, metadata, zipped⟩,
                 [Event.downloadFilesCall filename, Event.saveMetadataCall path,
                  Event.addBookCall book.isbn])
              else
                (Except.error (Err.transport "addBook failed"), cs.state,
                 [Event.downloadFilesCall filename, Event.saveMetadataCall path,
                  Event.addBookCall book.isbn])

/-- The `try`/`catch` around the body (lines 112–149): any body failure is
logged and re-raised as the generic `new Error("Failed to download books")`. -/
def runBody (env : Env) (cs : ClientState) (book : Audiobook)
    (metadata : DownloadMetadata) (urls : List String) (authToken : String)
    (keepZip : Bool) (evs0 : List Event) :
    Except Err String × ClientState × List Event :=
  match downloadBody env cs book metadata urls authToken keepZip with
  | (Except.ok fn, st, evs) => (Except.ok fn, ⟨cs.config, st⟩, evs0 ++ evs)
  | (Except.error _, st, evs) =>
      (Except.error Err.downloadFailed, ⟨cs.config, st⟩,
       evs0 ++ evs ++ [Event.errorLogged])

/-- `LibroFmClient.downloadBook` (lines 85–150): token guard, metadata
resolution (uncaught), overwrite/skip policy, then the caught body. -/
def downloadBook (env : Env) (cs : ClientState) (book : Audiobook)
    (overwrite : Bool) (keepZip : Bool) :
    Except Err String × ClientState × List Event :=
  match cs.config.liveToken with
  | none => (Except.error Err.notLoggedIn, cs, [])
  | some authToken =>
      match getDownloadMetadata env cs.config book.isbn with
      | (Except.error e, evs) => (Except.error e, cs, evs)
      | (Except.ok metadata, evs0) =>
          let urls := metadata.parts.map Part.url
          if !overwrite && hasBook cs.state book.isbn then
            if env.requestOverwrite book then
              runBody env cs book metadata urls authToken keepZip
                (evs0 ++ [Event.requestOverwriteCall book.isbn])
            else
              (Except.ok "", cs, evs0 ++ [Event.requestOverwriteCall book.isbn])
          else
            runBody env cs book metadata urls authToken keepZip evs0

/-! Pure descriptions of pagination outcomes, used to state the
`getLibrary` theorems: `mergeSeq pg page count acc` merges `count`
consecutive pages starting at `page` into `acc`; `pagesConcat` is the
concatenation of those pages' item lists; `lastWith k books` is the last
item of `books` carrying identifier `k`; `pageCalls` the corresponding
listing-request events. -/

/-- Merge `count` consecutive pages (from `page`) into `acc`. -/
def mergeSeq (pg : Nat → LibraryPage) : Nat → Nat → AudiobookMap → AudiobookMap
  | _, 0, acc => acc
  | page, count + 1, acc =>
      mergeSeq pg (page + 1) count (insertAll acc (pg page).audiobooks)

/-- Concatenation of the item lists of `count` consecutive pages. -/
def pagesConcat (pg : Nat → LibraryPage) : Nat → Nat → List Audiobook
  | _, 0 => []
  | page, count + 1 => (pg page).audiobooks ++ pagesConcat pg (page + 1) count

/-- The last element of `books` whose identifier is `k`, if any. -/
def lastWith (k : String) : List Audiobook → Option Audiobook
  | [] => none
  | b :: bs =>
      match lastWith k bs with
      | some x => some x
      | none => if b.isbn = k then some b else none

/-- The listing-request events for `count` consecutive pages from `page`. -/
def pageCalls (page count : Nat) : List Event :=
  (List.range' page count).map Event.fetchLibraryCall

/-! ### Concrete instances for witnesses and counterexamples -/

/-- C6's first example item. -/
def bookSaga : Audiobook :=
  ⟨"i1", some "The Book", some (Sum.inr ["A. Author", "B. Writer"]), some "Saga", some "2"⟩

/-- C6's second example item: no series. -/
def bookNoSeries : Audiobook :=
  ⟨"i2", some "The Book", some (Sum.inr ["A. Author"]), none, none⟩

/-- An item carrying no authors at all. -/
def bookNoAuthors : Audiobook := ⟨"i9", some "T", none, none, none⟩

/-- An item whose authors value is present but is the empty list. -/
def bookEmptyAuthors : Audiobook := ⟨"i3", none, some (Sum.inr []), none, none⟩

/-- An item whose authors value is present but is the empty string. -/
def bookEmptyStrAuthors : Audiobook := ⟨"i4", some "T", some (Sum.inl ""), none, none⟩

/-- Empty author list, but with a series and a title. -/
def bookEmptyAuthorsTitled : Audiobook := ⟨"i5", some "T", some (Sum.inr []), some "S", none⟩

/-- Plain catalog items `A`, `B`, `C` of the pagination examples. -/
def bookA : Audiobook := ⟨"a", some "A", some (Sum.inl "X"), none, none⟩

def bookB : Audiobook := ⟨"b", some "B", some (Sum.inl "X"), none, none⟩

def bookC : Audiobook := ⟨"c", some "C", some (Sum.inl "X"), none, none⟩

/-- A fully-set config with live token `"tok"`. -/
def cfg0 : Config := ⟨some "user", some "pass", some "tok", some "/downloads"⟩

/-- Client state with an empty ledger. -/
def csEmpty : ClientState := ⟨cfg0, []⟩

/-- Client state whose ledger already has a record for `bookSaga`. -/
def csWithSaga : ClientState :=
  ⟨cfg0, [("i1", ⟨bookSaga, "/old/path", ⟨"i1", []⟩, none⟩)]⟩

/-- Page function of the two-page example: `[{[A,B],2},{[C],2}]`. -/
def pgTwo : Nat → LibraryPage :=
  fun p => if p = 1 then ⟨[bookA, bookB], 2⟩ else ⟨[bookC], 2⟩

/-- Page function of the failing example: every page reports 3 total. -/
def pgThree : Nat → LibraryPage := fun _ => ⟨[bookA, bookB], 3⟩

/-- Collaborators that all succeed; the interactive overwrite decision
resolves to "no". -/
def envOk : Env where
  fetchLibrary := fun _ p => Except.ok (pgTwo p)
  fetchDownloadMetadata := fun _ i => Except.ok ⟨i, [⟨"u1"⟩, ⟨"u2"⟩]⟩
  requestOverwrite := fun _ => false
  downloadFiles := fun _ _ _ _ _ => Except.ok ("/final/path", none)
  saveMetadata := fun _ _ _ => Except.ok ()
  addBookOk := true

/-- Same, but the overwrite decision resolves to "yes". -/
def envOkYes : Env := { envOk with requestOverwrite := fun _ => true }

/-- Page 1 succeeds reporting 3 total pages; page 2 throws. -/
def envPageFail : Env :=
  { envOk with
    fetchLibrary := fun _ p =>
      if p = 1 then Except.ok (pgThree p) else Except.error (Err.transport "boom") }

/-- The transfer collaborator fails. -/
def envTransferFail : Env :=
  { envOk with downloadFiles := fun _ _ _ _ _ => Except.error (Err.transport "disk full") }

/-- The metadata-save step fails. -/
def envSaveFail : Env :=
  { envOk with saveMetadata := fun _ _ _ => Except.error (Err.transport "EACCES") }

/-- The Gateway's download-metadata resolution fails. -/
def envMetaFail : Env :=
  { envOk with
    fetchDownloadMetadata := fun _ _ =>
      Except.error (Err.metadataResolutionFailed "socket hang up") }

/-! ### Helper lemmas -/

theorem mapLookup_mapInsert_self (m : AudiobookMap) (b : Audiobook) :
    mapLookup (mapInsert m b) b.isbn = some b := by
  induction m with
  | nil => simp [mapInsert, mapLookup]
  | cons p rest ih =>
    by_cases h : p.1 = b.isbn
    · simp [mapInsert, h, mapLookup]
    · simpa [mapInsert, h, mapLookup] using ih

theorem mapLookup_mapInsert_other (m : AudiobookMap) (b : Audiobook) (k : String)
    (h : b.isbn ≠ k) : mapLookup (mapInsert m b) k = mapLookup m k := by
  induction m with
  | nil => simp [mapInsert, mapLookup, h]
  | cons p rest ih =>
    by_cases hp : p.1 = b.isbn
    · have hpk : ¬ p.1 = k := by rw [hp]; exact h
      simp [mapInsert, hp, mapLookup, h, hpk]
    · by_cases hk : p.1 = k
      · simp [mapInsert, hp, mapLookup, hk, h.symm]
      · simpa [mapInsert, hp, mapLookup, hk] using ih

theorem mapLookup_insertAll (books : List Audiobook) :
    ∀ (m : AudiobookMap) (k : String),
      mapLookup (insertAll m books) k =
        match lastWith k books with
        | some x => some x
        | none => mapLookup m k := by
  induction books with
  | nil => intro m k; simp [insertAll, lastWith]
  | cons b bs ih =>
    intro m k
    have hstep : insertAll m (b :: bs) = insertAll (mapInsert m b) bs := rfl
    rw [hstep, ih]
    cases hlw : lastWith k bs with
    | some x => simp [lastWith, hlw]
    | none =>
      by_cases hk : b.isbn = k
      · subst hk
        simp [lastWith, hlw, mapLookup_mapInsert_self]
      · simp [lastWith, hlw, hk, mapLookup_mapInsert_other m b k hk]

theorem lastWith_append (k : String) (xs ys : List Audiobook) :
    lastWith k (xs ++ ys) =
      match lastWith k ys with
      | some x => some x
      | none => lastWith k xs := by
  induction xs with
  | nil =>
    cases h : lastWith k ys with
    | some x => simp [h]
    | none => simp [h, lastWith]
  | cons x xs ih =>
    show lastWith k (x :: (xs ++ ys)) = _
    rw [lastWith, ih]
    cases hys : lastWith k ys with
    | some v => simp [lastWith]
    | none =>
      cases hxs : lastWith k xs with
      | some v => simp [lastWith, hxs]
      | none => simp [lastWith, hxs]

theorem mapLookup_mergeSeq (pg : Nat → LibraryPage) :
    ∀ (count page : Nat) (acc : AudiobookMap) (k : String),
      mapLookup (mergeSeq pg page count acc) k =
        match lastWith k (pagesConcat pg page count) with
        | some x => some x
        | none => mapLookup acc k := by
  intro count
  induction count with
  | zero => intro page acc k; simp [mergeSeq, pagesConcat, lastWith]
  | succ c ih =>
    intro page acc k
    show mapLookup (mergeSeq pg (page + 1) c (insertAll acc (pg page).audiobooks)) k = _
    rw [ih, pagesConcat, lastWith_append, mapLookup_insertAll]
    cases h1 : lastWith k (pagesConcat pg (page + 1) c) with
    | some x => simp
    | none =>
      cases h2 : lastWith k (pg page).audiobooks with
      | some x => simp
      | none => simp

theorem getLibraryLoop_fail (env : Env) (tok : String) (pg : Nat → LibraryPage)
    (e : Err) :
    ∀ (count page : Nat) (acc : AudiobookMap) (cfg : Config) (fuel : Nat),
      count < fuel →
      (∀ i, i < count → env.fetchLibrary tok (page + i) = Except.ok (pg (page + i)) ∧
          page + i < (pg (page + i)).total_pages) →
      env.fetchLibrary tok (page + count) = Except.error e →
      getLibraryLoop env tok fuel page acc cfg =
        (mergeSeq pg page count acc, clearToken cfg,
         pageCalls page count ++
           [Event.fetchLibraryCall (page + count), Event.errorLogged]) := by
  intro count
  induction count with
  | zero =>
    intro page acc cfg fuel hfuel hok hfail
    match fuel, hfuel with
    | f + 1, _ =>
      simp only [Nat.add_zero] at hfail
      simp [getLibraryLoop, hfail, mergeSeq, pageCalls, List.range']
  | succ c ih =>
    intro page acc cfg fuel hfuel hok hfail
    match fuel, hfuel with
    | f + 1, hfuel =>
      obtain ⟨h0, hcont⟩ := hok 0 (Nat.succ_pos c)
      simp only [Nat.add_zero] at h0 hcont
      have hnle : ¬ (pg page).total_pages ≤ page := Nat.not_le.mpr hcont
      have ihx := ih (page + 1) (insertAll acc (pg page).audiobooks) cfg f
        (Nat.lt_of_succ_lt_succ hfuel)
        (fun i hi => by
          have h := hok (i + 1) (Nat.succ_lt_succ hi)
          have e1 : page + (i + 1) = page + 1 + i := by omega
          rw [e1] at h
          exact h)
        (by
          have e1 : page + 1 + c = page + (c + 1) := by omega
          rw [e1]
          exact hfail)
      have e2 : page + 1 + c = page + (c + 1) := by omega
      rw [e2] at ihx
      simp [getLibraryLoop, h0, hnle, ihx, mergeSeq, pageCalls, List.range']

theorem getLibraryLoop_done (env : Env) (tok : String) (pg : Nat → LibraryPage) :
    ∀ (count page : Nat) (acc : AudiobookMap) (cfg : Config) (fuel : Nat),
      count < fuel →
      (∀ i, i < count → env.fetchLibrary tok (page + i) = Except.ok (pg (page + i)) ∧
          page + i < (pg (page + i)).total_pages) →
      env.fetchLibrary tok (page + count) = Except.ok (pg (page + count)) →
      (pg (page + count)).total_pages ≤ page + count →
      getLibraryLoop env tok fuel page acc cfg =
        (mergeSeq pg page (count + 1) acc, cfg, pageCalls page (count + 1)) := by
  intro count
  induction count with
  | zero =>
    intro page acc cfg fuel hfuel hok hlast hstop
    match fuel, hfuel with
    | f + 1, _ =>
      simp only [Nat.add_zero] at hlast hstop
      simp [getLibraryLoop, hlast, hstop, mergeSeq, pageCalls, List.range']
  | succ c ih =>
    intro page acc cfg fuel hfuel hok hlast hstop
    match fuel, hfuel with
    | f + 1, hfuel =>
      obtain ⟨h0, hcont⟩ := hok 0 (Nat.succ_pos c)
      simp only [Nat.add_zero] at h0 hcont
      have hnle : ¬ (pg page).total_pages ≤ page := Nat.not_le.mpr hcont
      have e2 : page + 1 + c = page + (c + 1) := by omega
      have ihx := ih (page + 1) (insertAll acc (pg page).audiobooks) cfg f
        (Nat.lt_of_succ_lt_succ hfuel)
        (fun i hi => by
          have h := hok (i + 1) (Nat.succ_lt_succ hi)
          have e1 : page + (i + 1) = page + 1 + i := by omega
          rw [e1] at h
          exact h)
        (by rw [e2]; exact hlast)
        (by rw [e2]; exact hstop)
      simp [getLibraryLoop, h0, hnle, ihx, mergeSeq, pageCalls, List.range']

theorem runBody_config (env : Env) (cs : ClientState) (book : Audiobook)
    (m : DownloadMetadata) (urls : List String) (tok : String) (kz : Bool)
    (evs0 : List Event) :
    (runBody env cs book m urls tok kz evs0).2.1.config = cs.config := by
  rcases hb : downloadBody env cs book m urls tok kz with ⟨r, st, evs⟩
  cases r <;> simp [runBody, hb]

theorem downloadBook_config (env : Env) (cs : ClientState) (book : Audiobook)
    (ov kz : Bool) :
    (downloadBook env cs book ov kz).2.1.config = cs.config := by
  cases h : cs.config.liveToken with
  | none => simp [downloadBook, h]
  | some tok =>
    rcases h2 : getDownloadMetadata env cs.config book.isbn with ⟨r, evs⟩
    cases r with
    | error e => simp [downloadBook, h, h2]
    | ok m =>
      cases hov : (!ov && hasBook cs.state book.isbn) with
      | false => simp [downloadBook, h, h2, hov, runBody_config]
      | true =>
        cases hreq : env.requestOverwrite book with
        | false => simp [downloadBook, h, h2, hov, hreq]
        | true => simp [downloadBook, h, h2, hov, hreq, runBody_config]

theorem getDownloadMetadata_ok (env : Env) (cfg : Config) (isbn tok : String)
    (m : DownloadMetadata)
    (hlt : cfg.liveToken = some tok)
    (hmeta : env.fetchDownloadMetadata tok isbn = Except.ok m) :
    getDownloadMetadata env cfg isbn = (Except.ok m, [Event.fetchMetadataCall isbn]) := by
  simp [getDownloadMetadata, hlt, hmeta]

theorem downloadBook_eq_runBody (env : Env) (cs : ClientState) (book : Audiobook)
    (ov kz : Bool) (tok : String) (m : DownloadMetadata)
    (htok : cs.config.authToken = some tok) (htok2 : tok ≠ "")
    (hmeta : env.fetchDownloadMetadata tok book.isbn = Except.ok m)
    (hcond : (!ov && hasBook cs.state book.isbn) = false) :
    downloadBook env cs book ov kz =
      runBody env cs book m (m.parts.map Part.url) tok kz
        [Event.fetchMetadataCall book.isbn] := by
  have hlt : cs.config.liveToken = some tok := by
    simp [Config.liveToken, htok, htok2]
  simp [downloadBook, hlt, getDownloadMetadata_ok env cs.config book.isbn tok m hlt hmeta,
    hcond]

theorem downloadBook_eq_runBody_prompt (env : Env) (cs : ClientState) (book : Audiobook)
    (ov kz : Bool) (tok : String) (m : DownloadMetadata)
    (htok : cs.config.authToken = some tok) (htok2 : tok ≠ "")
    (hmeta : env.fetchDownloadMetadata tok book.isbn = Except.ok m)
    (hcond : (!ov && hasBook cs.state book.isbn) = true)
    (hreq : env.requestOverwrite book = true) :
    downloadBook env cs book ov kz =
      runBody env cs book m (m.parts.map Part.url) tok kz
        [Event.fetchMetadataCall book.isbn, Event.requestOverwriteCall book.isbn] := by
  have hlt : cs.config.liveToken = some tok := by
    simp [Config.liveToken, htok, htok2]
  simp [downloadBook, hlt, getDownloadMetadata_ok env cs.config book.isbn tok m hlt hmeta,
    hcond, hreq]

theorem downloadBook_eq_skip (env : Env) (cs : ClientState) (book : Audiobook)
    (ov kz : Bool) (tok : String) (m : DownloadMetadata)
    (htok : cs.config.authToken = some tok) (htok2 : tok ≠ "")
    (hmeta : env.fetchDownloadMetadata tok book.isbn = Except.ok m)
    (hcond : (!ov && hasBook cs.state book.isbn) = true)
    (hreq : env.requestOverwrite book = false) :
    downloadBook env cs book ov kz =
      (Except.ok "", cs,
       [Event.fetchMetadataCall book.isbn, Event.requestOverwriteCall book.isbn]) := by
  have hlt : cs.config.liveToken = some tok := by
    simp [Config.liveToken, htok, htok2]
  simp [downloadBook, hlt, getDownloadMetadata_ok env cs.config book.isbn tok m hlt hmeta,
    hcond, hreq]

theorem downloadBody_cases (env : Env) (cs : ClientState) (book : Audiobook)
    (m : DownloadMetadata) (urls : List String) (tok : String) (kz : Bool) :
    (∃ e evs, downloadBody env cs book m urls tok kz = (Except.error e, cs.state, evs)) ∨
    (∃ a path z, authorsString book.authors = some a ∧
      downloadBody env cs book m urls tok kz =
        (Except.ok (filenameOf a book),
         ledgerPut cs.state ⟨book, path, m, z⟩,
         [Event.downloadFilesCall (filenameOf a book), Event.saveMetadataCall path,
          Event.addBookCall book.isbn])) := by
  cases ha : authorsString book.authors with
  | none => exact Or.inl ⟨Err.noAuthorsFound, [], by simp [downloadBody, ha]⟩
  | some a =>
    cases hd : env.downloadFiles (filenameOf a book) urls tok kz cs.config.downloadDir with
    | error e =>
      exact Or.inl ⟨e, [Event.downloadFilesCall (filenameOf a book)],
        by simp [downloadBody, ha, hd]⟩
    | ok pz =>
      rcases pz with ⟨path, z⟩
      cases hs : env.saveMetadata book m path with
      | error e =>
        exact Or.inl ⟨e,
          [Event.downloadFilesCall (filenameOf a book), Event.saveMetadataCall path],
          by simp [downloadBody, ha, hd, hs]⟩
      | ok u =>
        cases hab : env.addBookOk with
        | true =>
          refine Or.inr ⟨a, path, z, rfl, ?_⟩
          simp [downloadBody, ha, hd, hs, hab]
        | false =>
          exact Or.inl ⟨Err.transport "addBook failed",
            [Event.downloadFilesCall (filenameOf a book), Event.saveMetadataCall path,
             Event.addBookCall book.isbn],
            by simp [downloadBody, ha, hd, hs, hab]⟩

/-! ### Claim theorems -/

/-- C1: if any paginated listing request inside `getLibrary` fails, the
operation stops paginating immediately (no request beyond the failing
page), clears the Session's auth token, and returns the map of items
accumulated from the pages fetched so far; the failure is never surfaced
as an exception (the result is `ok`). -/
theorem getLibrary_page_failure_degrades
    (env : Env) (cs : ClientState) (tok : String) (pg : Nat → LibraryPage)
    (e : Err) (count fuel : Nat)
    (htok : cs.config.authToken = some tok) (htok2 : tok ≠ "")
    (hfuel : count < fuel)
    (hok : ∀ i, i < count → env.fetchLibrary tok (1 + i) = Except.ok (pg (1 + i)) ∧
        1 + i < (pg (1 + i)).total_pages)
    (hfail : env.fetchLibrary tok (1 + count) = Except.error e) :
    (getLibrary env fuel cs).1 = Except.ok (mergeSeq pg 1 count []) ∧
    (getLibrary env fuel cs).2.1.config.authToken = none ∧
    (getLibrary env fuel cs).2.2 =
      pageCalls 1 count ++ [Event.fetchLibraryCall (1 + count), Event.errorLogged] := by
  have hlt : cs.config.liveToken = some tok := by
    simp [Config.liveToken, htok, htok2]
  have hloop := getLibraryLoop_fail env tok pg e count 1 [] cs.config fuel hfuel hok hfail
  simp [getLibrary, hlt, hloop, clearToken]

/-- Closed instance of C1: page 1 succeeds with `total_pages = 3`, page 2
throws; `getLibrary` returns only page 1's items, the token is cleared,
and exactly two page requests were made. -/
theorem getLibrary_page_failure_degrades_witness :
    (getLibrary envPageFail 5 csEmpty).1 = Except.ok [("a", bookA), ("b", bookB)] ∧
    (getLibrary envPageFail 5 csEmpty).2.1.config.authToken = none ∧
    (getLibrary envPageFail 5 csEmpty).2.2 =
      [Event.fetchLibraryCall 1, Event.fetchLibraryCall 2, Event.errorLogged] := by
  have h := getLibrary_page_failure_degrades envPageFail csEmpty "tok" pgThree
    (Err.transport "boom") 1 5 rfl (by decide) (by omega)
    (by
      intro i hi
      have : i = 0 := by omega
      subst this
      exact ⟨rfl, by decide⟩)
    rfl
  refine ⟨h.1.trans (by rfl), h.2.1, h.2.2.trans (by decide)⟩

/-- C2: with a valid token and an all-success gateway, `getLibrary`
starts at page 1, advances one page at a time and stops once the page
number reaches the reported total-pages value, making exactly one request
per page; the result maps each identifier to the **last** item with that
identifier across the concatenated pages (later pages overwrite earlier
duplicates). -/
theorem getLibrary_merges_pages
    (env : Env) (cs : ClientState) (tok : String) (pg : Nat → LibraryPage)
    (count fuel : Nat)
    (htok : cs.config.authToken = some tok) (htok2 : tok ≠ "")
    (hfuel : count < fuel)
    (hok : ∀ i, i < count → env.fetchLibrary tok (1 + i) = Except.ok (pg (1 + i)) ∧
        1 + i < (pg (1 + i)).total_pages)
    (hlast : env.fetchLibrary tok (1 + count) = Except.ok (pg (1 + count)))
    (hstop : (pg (1 + count)).total_pages ≤ 1 + count) :
    (getLibrary env fuel cs).1 = Except.ok (mergeSeq pg 1 (count + 1) []) ∧
    (getLibrary env fuel cs).2.2 = pageCalls 1 (count + 1) ∧
    (∀ k, mapLookup (mergeSeq pg 1 (count + 1) []) k =
        lastWith k (pagesConcat pg 1 (count + 1))) := by
  have hlt : cs.config.liveToken = some tok := by
    simp [Config.liveToken, htok, htok2]
  have hloop := getLibraryLoop_done env tok pg count 1 [] cs.config fuel hfuel hok hlast hstop
  refine ⟨?_, ?_, ?_⟩
  · simp [getLibrary, hlt, hloop]
  · simp [getLibrary, hlt, hloop]
  · intro k
    rw [mapLookup_mergeSeq]
    cases lastWith k (pagesConcat pg 1 (count + 1)) <;> simp [mapLookup]

/-- Closed instance of C2: pages `[{[A,B],2},{[C],2}]` produce exactly
`{A, B, C}` with exactly two page requests. -/
theorem getLibrary_merges_pages_witness :
    (getLibrary envOk 5 csEmpty).1 =
      Except.ok [("a", bookA), ("b", bookB), ("c", bookC)] ∧
    (getLibrary envOk 5 csEmpty).2.2 =
      [Event.fetchLibraryCall 1, Event.fetchLibraryCall 2] := by
  have h := getLibrary_merges_pages envOk csEmpty "tok" pgTwo 1 5 rfl (by decide)
    (by omega)
    (by
      intro i hi
      have : i = 0 := by omega
      subst this
      exact ⟨rfl, by decide⟩)
    rfl (by decide)
  exact ⟨h.1.trans (by rfl), h.2.1.trans (by decide)⟩

/-- C3, counterexample: a failing transfer call and a failing
download-metadata call are authenticated calls after which the Session's
auth token is NOT cleared — it is still `some "tok"`. -/
theorem downloadBook_failure_keeps_token_cex :
    (downloadBook envTransferFail csEmpty bookSaga false false).1 =
      Except.error Err.downloadFailed ∧
    (downloadBook envTransferFail csEmpty bookSaga false false).2.1.config.authToken =
      some "tok" ∧
    (downloadBook envMetaFail csEmpty bookSaga false false).1 =
      Except.error (Err.metadataResolutionFailed "socket hang up") ∧
    (downloadBook envMetaFail csEmpty bookSaga false false).2.1.config.authToken =
      some "tok" := by
  decide

/-- C3, amended: only a failing paginated listing call inside `getLibrary`
clears the auth token; `downloadBook` (covering download-metadata
resolution and transfer failures) leaves the token exactly as it was. -/
theorem authToken_clearing_policy
    (env env2 : Env) (cs cs2 : ClientState) (book : Audiobook) (ov kz : Bool)
    (tok : String) (pg : Nat → LibraryPage) (e : Err) (count fuel : Nat)
    (htok : cs2.config.authToken = some tok) (htok2 : tok ≠ "")
    (hfuel : count < fuel)
    (hok : ∀ i, i < count → env2.fetchLibrary tok (1 + i) = Except.ok (pg (1 + i)) ∧
        1 + i < (pg (1 + i)).total_pages)
    (hfail : env2.fetchLibrary tok (1 + count) = Except.error e) :
    (downloadBook env cs book ov kz).2.1.config.authToken = cs.config.authToken ∧
    (getLibrary env2 fuel cs2).2.1.config.authToken = none := by
  constructor
  · rw [downloadBook_config]
  · have hlt : cs2.config.liveToken = some tok := by
      simp [Config.liveToken, htok, htok2]
    have hloop := getLibraryLoop_fail env2 tok pg e count 1 [] cs2.config fuel hfuel hok hfail
    simp [getLibrary, hlt, hloop, clearToken]

/-- Closed instance of the amended C3: a failed transfer leaves the token
untouched, while a page-2 listing failure clears it. -/
theorem authToken_clearing_policy_witness :
    (downloadBook envTransferFail csEmpty bookSaga false false).2.1.config.authToken =
      csEmpty.config.authToken ∧
    (getLibrary envPageFail 5 csEmpty).2.1.config.authToken = none := by
  exact authToken_clearing_policy envTransferFail envPageFail csEmpty csEmpty bookSaga
    false false "tok" pgThree (Err.transport "boom") 1 5 rfl (by decide) (by omega)
    (by
      intro i hi
      have : i = 0 := by omega
      subst this
      exact ⟨rfl, by decide⟩)
    rfl

/-- C4, counterexample: an item carrying no authors, with no prior ledger
record and an all-success gateway, does fail via the generic
`DownloadFailed` — but the download-metadata network call has already been
made before the authors guard, so the operation does NOT abort before all
network work. -/
theorem downloadBook_missing_authors_network_cex :
    bookNoAuthors.authors = none ∧
    (downloadBook envOk csEmpty bookNoAuthors false false).1 =
      Except.error Err.downloadFailed ∧
    (downloadBook envOk csEmpty bookNoAuthors false false).2.2 =
      [Event.fetchMetadataCall "i9", Event.errorLogged] := by
  decide

/-- C4, amended: for an item with no authors, when metadata resolution
succeeds and the skip path is not taken, `downloadBook` fails with the
generic `DownloadFailed` and the Transfer collaborator is never invoked;
the metadata-resolution network call, however, is always performed first. -/
theorem downloadBook_missing_authors_aborts
    (env : Env) (cs : ClientState) (book : Audiobook) (ov kz : Bool)
    (tok : String) (m : DownloadMetadata)
    (htok : cs.config.authToken = some tok) (htok2 : tok ≠ "")
    (hmeta : env.fetchDownloadMetadata tok book.isbn = Except.ok m)
    (hnoauth : book.authors = none)
    (hnoskip : hasBook cs.state book.isbn = false ∨ ov = true ∨
        env.requestOverwrite book = true) :
    (downloadBook env cs book ov kz).1 = Except.error Err.downloadFailed ∧
    (∀ f, Event.downloadFilesCall f ∉ (downloadBook env cs book ov kz).2.2) ∧
    Event.fetchMetadataCall book.isbn ∈ (downloadBook env cs book ov kz).2.2 := by
  have ha : authorsString book.authors = none := by rw [hnoauth]; rfl
  have hbody : downloadBody env cs book m (m.parts.map Part.url) tok kz =
      (Except.error Err.noAuthorsFound, cs.state, []) := by
    simp [downloadBody, ha]
  cases hcond : (!ov && hasBook cs.state book.isbn) with
  | false =>
    rw [downloadBook_eq_runBody env cs book ov kz tok m htok htok2 hmeta hcond]
    simp [runBody, hbody]
  | true =>
    have hreq : env.requestOverwrite book = true := by
      rcases hnoskip with h | h | h
      · rw [h, Bool.and_false] at hcond; exact absurd hcond (by simp)
      · rw [h] at hcond; simp at hcond
      · exact h
    rw [downloadBook_eq_runBody_prompt env cs book ov kz tok m htok htok2 hmeta hcond hreq]
    simp [runBody, hbody]

/-- Closed instance of the amended C4. -/
theorem downloadBook_missing_authors_aborts_witness :
    (downloadBook envOk csEmpty bookNoAuthors false false).1 =
      Except.error Err.downloadFailed ∧
    Event.fetchMetadataCall "i9" ∈
      (downloadBook envOk csEmpty bookNoAuthors false false).2.2 ∧
    Event.downloadFilesCall "" ∉
      (downloadBook envOk csEmpty bookNoAuthors false false).2.2 := by
  have h := downloadBook_missing_authors_aborts envOk csEmpty bookNoAuthors false false
    "tok" ⟨"i9", [⟨"u1"⟩, ⟨"u2"⟩]⟩ rfl (by decide) rfl rfl (Or.inl rfl)
  exact ⟨h.1, h.2.2, h.2.1 ""⟩

/-- C5: with a live token, successful metadata resolution, an existing
ledger record for the item, `overwrite = false` and an interactive
decision of "no", `downloadBook` returns the empty no-op result, leaves
the whole client state (so in particular the ledger record for this
identifier) unchanged, and never invokes the Transfer collaborator. -/
theorem downloadBook_skip_noop
    (env : Env) (cs : ClientState) (book : Audiobook) (kz : Bool)
    (tok : String) (m : DownloadMetadata)
    (htok : cs.config.authToken = some tok) (htok2 : tok ≠ "")
    (hmeta : env.fetchDownloadMetadata tok book.isbn = Except.ok m)
    (hhas : hasBook cs.state book.isbn = true)
    (hdec : env.requestOverwrite book = false) :
    downloadBook env cs book false kz =
      (Except.ok "", cs,
       [Event.fetchMetadataCall book.isbn, Event.requestOverwriteCall book.isbn]) ∧
    (∀ f, Event.downloadFilesCall f ∉ (downloadBook env cs book false kz).2.2) ∧
    ledgerGet (downloadBook env cs book false kz).2.1.state book.isbn =
      ledgerGet cs.state book.isbn := by
  have hcond : (!false && hasBook cs.state book.isbn) = true := by simp [hhas]
  have heq := downloadBook_eq_skip env cs book false kz tok m htok htok2 hmeta hcond hdec
  refine ⟨heq, ?_, ?_⟩
  · rw [heq]; intro f; simp
  · rw [heq]

/-- Closed instance of C5: a ledger holding a record for `"i1"` is left
intact and the result is the empty string. -/
theorem downloadBook_skip_noop_witness :
    downloadBook envOk csWithSaga bookSaga false false =
      (Except.ok "", csWithSaga,
       [Event.fetchMetadataCall "i1", Event.requestOverwriteCall "i1"]) ∧
    Event.downloadFilesCall "A. Author, B. Writer/Saga/2 - The Book" ∉
      (downloadBook envOk csWithSaga bookSaga false false).2.2 ∧
    ledgerGet (downloadBook envOk csWithSaga bookSaga false false).2.1.state "i1" =
      ledgerGet csWithSaga.state "i1" := by
  have h := downloadBook_skip_noop envOk csWithSaga bookSaga false "tok"
    ⟨"i1", [⟨"u1"⟩, ⟨"u2"⟩]⟩ rfl (by decide) rfl (by decide) rfl
  exact ⟨h.1, h.2.1 _, h.2.2⟩

/-- C6: the derived relative path is `authors/series/"seriesPosition -
title"` with missing components omitted and authors joined by `", "`:
the two spec examples, both as the value `downloadBook` returns and as
the path handed to the Transfer collaborator. -/
theorem downloadBook_path_derivation :
    (downloadBook envOk csEmpty bookSaga false false).1 =
      Except.ok "A. Author, B. Writer/Saga/2 - The Book" ∧
    Event.downloadFilesCall "A. Author, B. Writer/Saga/2 - The Book" ∈
      (downloadBook envOk csEmpty bookSaga false false).2.2 ∧
    (downloadBook envOk csEmpty bookNoSeries false false).1 =
      Except.ok "A. Author/The Book" ∧
    Event.downloadFilesCall "A. Author/The Book" ∈
      (downloadBook envOk csEmpty bookNoSeries false false).2.2 ∧
    deriveFilename bookSaga = some "A. Author, B. Writer/Saga/2 - The Book" ∧
    deriveFilename bookNoSeries = some "A. Author/The Book" := by
  decide

/-- C7: when the Gateway's download-metadata call fails with
`MetadataResolutionFailed`, `downloadBook` propagates exactly that error
(no state change, no further calls) and never converts it into the
generic `DownloadFailed`. -/
theorem downloadBook_metadata_failure_propagates
    (env : Env) (cs : ClientState) (book : Audiobook) (ov kz : Bool)
    (tok cause : String)
    (htok : cs.config.authToken = some tok) (htok2 : tok ≠ "")
    (hfail : env.fetchDownloadMetadata tok book.isbn =
        Except.error (Err.metadataResolutionFailed cause)) :
    downloadBook env cs book ov kz =
      (Except.error (Err.metadataResolutionFailed cause), cs,
       [Event.fetchMetadataCall book.isbn]) ∧
    (downloadBook env cs book ov kz).1 ≠ Except.error Err.downloadFailed := by
  have hlt : cs.config.liveToken = some tok := by
    simp [Config.liveToken, htok, htok2]
  have hgm : getDownloadMetadata env cs.config book.isbn =
      (Except.error (Err.metadataResolutionFailed cause),
       [Event.fetchMetadataCall book.isbn]) := by
    simp [getDownloadMetadata, hlt, hfail]
  have heq : downloadBook env cs book ov kz =
      (Except.error (Err.metadataResolutionFailed cause), cs,
       [Event.fetchMetadataCall book.isbn]) := by
    simp [downloadBook, hlt, hgm]
  refine ⟨heq, ?_⟩
  rw [heq]
  simp

/-- Closed instance of C7. -/
theorem downloadBook_metadata_failure_propagates_witness :
    downloadBook envMetaFail csEmpty bookSaga false false =
      (Except.error (Err.metadataResolutionFailed "socket hang up"), csEmpty,
       [Event.fetchMetadataCall "i1"]) ∧
    (downloadBook envMetaFail csEmpty bookSaga false false).1 ≠
      Except.error Err.downloadFailed := by
  exact downloadBook_metadata_failure_propagates envMetaFail csEmpty bookSaga false false
    "tok" "socket hang up" rfl (by decide) rfl

theorem runBody_spec (env : Env) (cs : ClientState) (book : Audiobook)
    (m : DownloadMetadata) (urls : List String) (tok : String) (kz : Bool)
    (evs0 : List Event) :
    (∀ e, (runBody env cs book m urls tok kz evs0).1 = Except.error e →
      e = Err.downloadFailed ∧ (runBody env cs book m urls tok kz evs0).2.1 = cs ∧
      Event.errorLogged ∈ (runBody env cs book m urls tok kz evs0).2.2) ∧
    ((runBody env cs book m urls tok kz evs0).2.1.state ≠ cs.state →
      ∃ fn, (runBody env cs book m urls tok kz evs0).1 = Except.ok fn ∧
        Event.downloadFilesCall fn ∈ (runBody env cs book m urls tok kz evs0).2.2 ∧
        ∃ p, Event.saveMetadataCall p ∈ (runBody env cs book m urls tok kz evs0).2.2) := by
  rcases downloadBody_cases env cs book m urls tok kz with ⟨e0, evs, heq⟩ |
    ⟨a, path, z, ha, heq⟩
  · have hrb : runBody env cs book m urls tok kz evs0 =
        (Except.error Err.downloadFailed, ⟨cs.config, cs.state⟩,
         evs0 ++ evs ++ [Event.errorLogged]) := by
      simp [runBody, heq]
    rw [hrb]
    constructor
    · intro e he
      simp only at he
      injection he with he2
      exact ⟨he2.symm, rfl, by simp⟩
    · intro hne
      exact absurd rfl hne
  · have hrb : runBody env cs book m urls tok kz evs0 =
        (Except.ok (filenameOf a book),
         ⟨cs.config, ledgerPut cs.state ⟨book, path, m, z⟩⟩,
         evs0 ++ [Event.downloadFilesCall (filenameOf a book),
           Event.saveMetadataCall path, Event.addBookCall book.isbn]) := by
      simp [runBody, heq]
    rw [hrb]
    constructor
    · intro e he
      exact absurd he (by simp)
    · intro hne
      refine ⟨filenameOf a book, rfl, by simp, path, by simp⟩

/-- C8: with a live token and successful metadata resolution, every
failure inside the download body comes back as the single generic
`DownloadFailed` error, the error is logged, and the whole client state —
in particular the Ledger — is unchanged; conversely, the Ledger changes
only on a successful run, after both the transfer and the metadata-save
calls were made. -/
theorem downloadBook_body_failures_collapsed
    (env : Env) (cs : ClientState) (book : Audiobook) (ov kz : Bool)
    (tok : String) (m : DownloadMetadata)
    (htok : cs.config.authToken = some tok) (htok2 : tok ≠ "")
    (hmeta : env.fetchDownloadMetadata tok book.isbn = Except.ok m) :
    (∀ e, (downloadBook env cs book ov kz).1 = Except.error e →
      e = Err.downloadFailed ∧ (downloadBook env cs book ov kz).2.1 = cs ∧
      Event.errorLogged ∈ (downloadBook env cs book ov kz).2.2) ∧
    ((downloadBook env cs book ov kz).2.1.state ≠ cs.state →
      ∃ fn, (downloadBook env cs book ov kz).1 = Except.ok fn ∧
        Event.downloadFilesCall fn ∈ (downloadBook env cs book ov kz).2.2 ∧
        ∃ p, Event.saveMetadataCall p ∈ (downloadBook env cs book ov kz).2.2) := by
  cases hcond : (!ov && hasBook cs.state book.isbn) with
  | false =>
    rw [downloadBook_eq_runBody env cs book ov kz tok m htok htok2 hmeta hcond]
    exact runBody_spec env cs book m (m.parts.map Part.url) tok kz _
  | true =>
    cases hreq : env.requestOverwrite book with
    | true =>
      rw [downloadBook_eq_runBody_prompt env cs book ov kz tok m htok htok2 hmeta
        hcond hreq]
      exact runBody_spec env cs book m (m.parts.map Part.url) tok kz _
    | false =>
      rw [downloadBook_eq_skip env cs book ov kz tok m htok htok2 hmeta hcond hreq]
      constructor
      · intro e he
        exact absurd he (by simp)
      · intro hne
        exact absurd rfl hne

/-- Closed instance of C8: a failing metadata-save collapses into
`DownloadFailed`, is logged, and leaves the client state untouched. -/
theorem downloadBook_body_failures_collapsed_witness :
    (downloadBook envSaveFail csEmpty bookSaga false false).1 =
      Except.error Err.downloadFailed ∧
    (downloadBook envSaveFail csEmpty bookSaga false false).2.1 = csEmpty ∧
    Event.errorLogged ∈ (downloadBook envSaveFail csEmpty bookSaga false false).2.2 := by
  have h := downloadBook_body_failures_collapsed envSaveFail csEmpty bookSaga false false
    "tok" ⟨"i1", [⟨"u1"⟩, ⟨"u2"⟩]⟩ rfl (by decide) rfl
  have h2 := h.1 Err.downloadFailed (by rfl)
  exact ⟨by rfl, h2.2.1, h2.2.2⟩

/-- C9, counterexample: an item whose derived path is empty (empty author
list, no series, no title) completes a download — the Transfer
collaborator runs and the ledger changes — yet `downloadBook` returns the
empty string, the same value as the skip path, so emptiness of the result
does not distinguish a skipped download from a completed one. -/
theorem downloadBook_empty_path_cex :
    (downloadBook envOk csEmpty bookEmptyAuthors false false).1 = Except.ok "" ∧
    Event.downloadFilesCall "" ∈
      (downloadBook envOk csEmpty bookEmptyAuthors false false).2.2 ∧
    (downloadBook envOk csEmpty bookEmptyAuthors false false).2.1.state ≠
      csEmpty.state := by
  decide

/-- C9, amended: the skip path returns the empty string; a successful run
returns the derived relative path (independent of the final path the
Transfer collaborator reports); the two are distinguishable by emptiness
whenever the derived path is non-empty. -/
theorem downloadBook_return_value
    (env : Env) (cs : ClientState) (book : Audiobook) (kz : Bool)
    (tok : String) (m : DownloadMetadata) (finalPath : String)
    (z : Option (List String))
    (htok : cs.config.authToken = some tok) (htok2 : tok ≠ "")
    (hmeta : env.fetchDownloadMetadata tok book.isbn = Except.ok m) :
    (hasBook cs.state book.isbn = true → env.requestOverwrite book = false →
      (downloadBook env cs book false kz).1 = Except.ok "") ∧
    (∀ a, authorsString book.authors = some a →
      hasBook cs.state book.isbn = false →
      env.downloadFiles (filenameOf a book) (m.parts.map Part.url) tok kz
          cs.config.downloadDir = Except.ok (finalPath, z) →
      env.saveMetadata book m finalPath = Except.ok () →
      env.addBookOk = true →
      (downloadBook env cs book false kz).1 = Except.ok (filenameOf a book) ∧
      (filenameOf a book ≠ "" →
        (downloadBook env cs book false kz).1 ≠ Except.ok "")) := by
  constructor
  · intro hhas hdec
    have hcond : (!false && hasBook cs.state book.isbn) = true := by simp [hhas]
    rw [downloadBook_eq_skip env cs book false kz tok m htok htok2 hmeta hcond hdec]
  · intro a ha hhas hd hs hab
    have hcond : (!false && hasBook cs.state book.isbn) = false := by simp [hhas]
    rw [downloadBook_eq_runBody env cs book false kz tok m htok htok2 hmeta hcond]
    have hbody : downloadBody env cs book m (m.parts.map Part.url) tok kz =
        (Except.ok (filenameOf a book),
         ledgerPut cs.state ⟨book, finalPath, m, z⟩,
         [Event.downloadFilesCall (filenameOf a book),
          Event.saveMetadataCall finalPath, Event.addBookCall book.isbn]) := by
      simp [downloadBody, ha, hd, hs, hab]
    constructor
    · simp [runBody, hbody]
    · intro hne heq
      simp [runBody, hbody] at heq
      exact hne heq

/-- Closed instance of the amended C9: the skip path yields `""`, a
successful run yields the non-empty derived path (not the Transfer's
`"/final/path"`). -/
theorem downloadBook_return_value_witness :
    (downloadBook envOk csWithSaga bookSaga false false).1 = Except.ok "" ∧
    (downloadBook envOk csEmpty bookSaga false false).1 =
      Except.ok "A. Author, B. Writer/Saga/2 - The Book" ∧
    (downloadBook envOk csEmpty bookSaga false false).1 ≠ Except.ok "" := by
  have h1 := (downloadBook_return_value envOk csWithSaga bookSaga false "tok"
    ⟨"i1", [⟨"u1"⟩, ⟨"u2"⟩]⟩ "/final/path" none rfl (by decide) rfl).1 (by decide) rfl
  have h2 := (downloadBook_return_value envOk csEmpty bookSaga false "tok"
    ⟨"i1", [⟨"u1"⟩, ⟨"u2"⟩]⟩ "/final/path" none rfl (by decide) rfl).2
    "A. Author, B. Writer" rfl (by decide) rfl rfl rfl
  exact ⟨h1, h2.1.trans (by rfl), h2.2 (by decide)⟩

/-- C10, counterexample: an item whose authors value is present but is
the empty string (JS-falsy) also triggers the missing-authors failure —
with an all-success environment the run fails with `DownloadFailed`
without invoking the Transfer collaborator, even though `authors` is not
null/undefined. -/
theorem missing_authors_empty_string_cex :
    bookEmptyStrAuthors.authors ≠ none ∧
    (downloadBook envOk csEmpty bookEmptyStrAuthors false false).1 =
      Except.error Err.downloadFailed ∧
    (downloadBook envOk csEmpty bookEmptyStrAuthors false false).2.2 =
      [Event.fetchMetadataCall "i4", Event.errorLogged] := by
  decide

/-- C10, amended: the missing-authors guard fires exactly when `authors`
is absent or the empty string (JS falsiness); an empty author **list** is
truthy, so the download proceeds, and the empty joined author string is
dropped from the derived path rather than left as an empty leading
component. -/
theorem missing_authors_guard_characterization
    (a : Option (String ⊕ List String))
    (env : Env) (cs : ClientState) (book : Audiobook) (kz : Bool)
    (tok : String) (m : DownloadMetadata) (finalPath : String)
    (z : Option (List String))
    (htok : cs.config.authToken = some tok) (htok2 : tok ≠ "")
    (hmeta : env.fetchDownloadMetadata tok book.isbn = Except.ok m) :
    (authorsString a = none ↔ a = none ∨ a = some (Sum.inl "")) ∧
    (book.authors = some (Sum.inr []) →
      deriveFilename book =
        some (String.intercalate "/"
          (jsFilterBoolean [book.series, some (titlePart book)])) ∧
      (hasBook cs.state book.isbn = false →
        env.downloadFiles (filenameOf "" book) (m.parts.map Part.url) tok kz
            cs.config.downloadDir = Except.ok (finalPath, z) →
        env.saveMetadata book m finalPath = Except.ok () →
        env.addBookOk = true →
        (downloadBook env cs book false kz).1 = Except.ok (filenameOf "" book))) := by
  constructor
  · rcases a with _ | s | l
    · simp [authorsString]
    · by_cases hs : s = ""
      · subst hs; simp [authorsString]
      · simp [authorsString, hs]
    · simp [authorsString]
  · intro hA
    have ha : authorsString book.authors = some "" := by
      rw [hA]; rfl
    have hfo : filenameOf "" book =
        String.intercalate "/" (jsFilterBoolean [book.series, some (titlePart book)]) := by
      simp [filenameOf, jsFilterBoolean]
    constructor
    · simp [deriveFilename, ha, hfo]
    · intro hhas hd hs hab
      have hcond : (!false && hasBook cs.state book.isbn) = false := by simp [hhas]
      rw [downloadBook_eq_runBody env cs book false kz tok m htok htok2 hmeta hcond]
      have hbody : downloadBody env cs book m (m.parts.map Part.url) tok kz =
          (Except.ok (filenameOf "" book),
           ledgerPut cs.state ⟨book, finalPath, m, z⟩,
           [Event.downloadFilesCall (filenameOf "" book),
            Event.saveMetadataCall finalPath, Event.addBookCall book.isbn]) := by
        simp [downloadBody, ha, hd, hs, hab]
      simp [runBody, hbody]

/-- Closed instance of the amended C10: the present-but-empty string is
treated as missing, while the empty list proceeds and yields a path with
no empty leading component. -/
theorem missing_authors_guard_characterization_witness :
    authorsString (some (Sum.inl "")) = none ∧
    deriveFilename bookEmptyAuthorsTitled = some "S/T" ∧
    (downloadBook envOk csEmpty bookEmptyAuthorsTitled false false).1 =
      Except.ok "S/T" := by
  have h := missing_authors_guard_characterization (some (Sum.inl "")) envOk csEmpty
    bookEmptyAuthorsTitled false "tok" ⟨"i5", [⟨"u1"⟩, ⟨"u2"⟩]⟩ "/final/path" none
    rfl (by decide) rfl
  have h2 := h.2 rfl
  have h3 := h2.2 rfl rfl rfl rfl
  exact ⟨h.1.mpr (Or.inr rfl), h2.1.trans (by rfl), h3.trans (by rfl)⟩

end LibroFm
